import Mathlib

/-!
Shallow embedding of the job-scraping core of `src/backend/services/scrapingService.js`
(class `ScrapingService`), together with the pieces of its collaborators that the
verified properties depend on (the persisted `Job` record shape from
`src/backend/models/Job.js`; `AuditLogger.log` swallows its own errors, so audit
calls never fail the run).

Conventions of the embedding:
- JavaScript strings that may be `null`/`undefined` are `Option String`;
  JS truthiness of a string is `none`/empty ↦ false.
- String interpolation of a missing value renders as "undefined", as the
  template literals in the source do.
- Effectful browser/DB/clock/crypto operations are abstracted into a
  `ScrapeEnv` record of oracle functions; the control flow around them is
  translated statement by statement from the source.
- Thrown JS exceptions are `Except.error` carrying the message.
-/

/-- JS truthiness of a possibly-missing string (`null`/`undefined`/`""` are falsy). -/
def truthy : Option String → Bool
  | none => false
  | some s => !(s = "")

/-- Rendering of a possibly-missing string inside a template literal. -/
def jsShow : Option String → String
  | none => "undefined"
  | some s => s

/-- JS `a || b` for possibly-missing strings (first truthy operand). -/
def jsOrOpt (a b : Option String) : Option String :=
  if truthy a then a else b

/-- JS `a || d` where the default is a definite string. -/
def jsOrStr (a : Option String) (d : String) : String :=
  if truthy a then jsShow a else d

/-- `String.prototype.toLowerCase` (ASCII range, as `Char.toLower`). -/
def jsToLower (s : String) : String :=
  ⟨s.data.map Char.toLower⟩

/-- `hay` starts with `needle` (character lists). -/
def startsWithL : List Char → List Char → Bool
  | _, [] => true
  | [], _ :: _ => false
  | h :: hs, n :: ns => h == n && startsWithL hs ns

/-- Substring search on character lists: `needle` occurs somewhere in `hay`. -/
def includesL (needle : List Char) : List Char → Bool
  | [] => startsWithL [] needle
  | h :: t => startsWithL (h :: t) needle || includesL needle t

/-- `String.prototype.includes` (case-sensitive substring test). -/
def jsIncludes (hay needle : String) : Bool :=
  includesL needle.data hay.data

/-- `company.replace(/[\n\t]/g, ' ').trim()` from `enhanceJobData`. -/
def cleanCompany (s : String) : String :=
  String.trim ⟨s.data.map (fun c => if c = '\n' || c = '\t' then ' ' else c)⟩

/-- `skill.charAt(0).toUpperCase() + skill.slice(1)` from `extractSkillsFromText`. -/
def capitalizeFirst (s : String) : String :=
  match s.data with
  | [] => ""
  | c :: rest => ⟨Char.toUpper c :: rest⟩

/-- The text scanned by the classifiers: `jobData.title + " " + jobData.description`,
lowercased (`detectJobType`, `detectExperienceLevel`, `detectCategories`,
`extractSkills` all build this string). -/
def classText (title : String) (descr : Option String) : String :=
  jsToLower (title ++ " " ++ jsShow descr)

/-- `detectJobType` (scrapingService.js lines 466-477): keyword ladder over the
lowercased title+description. -/
def detectJobType (title : String) (descr : Option String) : String :=
  let text := classText title descr
  if jsIncludes text "part-time" || jsIncludes text "part time" then "part-time"
  else if jsIncludes text "contract" then "contract"
  else if jsIncludes text "temporary" || jsIncludes text "temp" then "temporary"
  else if jsIncludes text "intern" || jsIncludes text "graduate" then "internship"
  else if jsIncludes text "remote" || jsIncludes text "work from home" then "remote"
  else if jsIncludes text "hybrid" then "hybrid"
  else "full-time"

/-- `detectExperienceLevel` (lines 479-488). -/
def detectExperienceLevel (title : String) (descr : Option String) : String :=
  let text := classText title descr
  if jsIncludes text "junior" || jsIncludes text "entry level" || jsIncludes text "graduate" then "entry"
  else if jsIncludes text "senior" || jsIncludes text "lead" || jsIncludes text "principal" || jsIncludes text "head of" then "senior"
  else if jsIncludes text "executive" || jsIncludes text "director" || jsIncludes text "vp" || jsIncludes text "c-level" then "executive"
  else if jsIncludes text "mid" || jsIncludes text "intermediate" then "mid"
  else "not-specified"

/-- `isRemoteJob` (lines 490-497): title+description+location scanned. -/
def isRemoteJob (title : String) (descr : Option String) (location : String) : Bool :=
  let text := jsToLower (title ++ " " ++ jsShow descr ++ " " ++ location)
  jsIncludes text "remote" || jsIncludes text "work from home" ||
    jsIncludes text "wfh" || jsIncludes text "virtual" || jsIncludes text "anywhere"

/-- The category keyword table of `detectCategories` (lines 504-512), in object
order, keywords verbatim — note the uppercase keyword "IT" in the IT row. -/
def categoryKeywords : List (String × List String) :=
  [("IT", ["software", "developer", "programmer", "IT", "tech", "engineer", "system", "network"]),
   ("Finance", ["finance", "accounting", "bank", "financial", "audit", "tax"]),
   ("Marketing", ["marketing", "digital", "social media", "brand", "advertising"]),
   ("Sales", ["sales", "account manager", "business development"]),
   ("Healthcare", ["health", "medical", "nurse", "doctor", "hospital"]),
   ("Education", ["education", "teacher", "lecturer", "academic", "school"]),
   ("Engineering", ["engineer", "technical", "manufacturing", "production"])]

/-- The accumulation loop of `detectCategories`: push the category name whenever
some keyword occurs in the scanned text. -/
def catScan (text : String) : List (String × List String) → List String
  | [] => []
  | (cat, kws) :: rest =>
    if kws.any (fun k => jsIncludes text k) then cat :: catScan text rest
    else catScan text rest

/-- `detectCategories` (lines 499-521). -/
def detectCategories (title : String) (descr : Option String) : List String :=
  let cats := catScan (classText title descr) categoryKeywords
  if cats.length > 0 then cats else ["General"]

/-- The fixed skill vocabulary of `extractSkills` (lines 528-535). -/
def commonSkills : List String :=
  ["JavaScript", "Python", "Java", "C#", "PHP", "SQL", "React", "Angular", "Vue",
   "Node.js", "Spring", "Django", "Laravel", "AWS", "Azure", "Docker", "Kubernetes",
   "Machine Learning", "Data Analysis", "Project Management", "Agile", "Scrum",
   "SEO", "Digital Marketing", "Social Media", "Content Writing", "Graphic Design",
   "Accounting", "Financial Analysis", "Risk Management", "Sales", "Negotiation",
   "Customer Service", "Communication", "Leadership", "Teamwork", "Problem Solving"]

/-- `extractSkills` (lines 523-544): case-insensitive vocabulary scan; the
vocabulary has no repeats, so the JS `Set` preserves the filter order. -/
def extractSkills (title : String) (descr : Option String) : List String :=
  let text := title ++ " " ++ jsShow descr
  commonSkills.filter (fun sk => jsIncludes (jsToLower text) (jsToLower sk))

/-- The keyword list of `extractSkillsFromText` (lines 549-552). -/
def skillKeywords : List String :=
  ["javascript", "python", "java", "react", "angular", "node", "sql", "aws",
   "marketing", "sales", "management", "analysis", "development", "design"]

/-- `extractSkillsFromText` (lines 546-561). -/
def extractSkillsFromText (text : String) : List String :=
  (skillKeywords.filter (fun sk => jsIncludes (jsToLower text) sk)).map capitalizeFirst

/-- The record shape seen by the inline quality scorer `calculateQualityScore`
(lines 580-590): a dynamic JS object whose fields may all be absent. -/
structure QJob where
  title : Option String
  company : Option String
  description : Option String
  salary : Option String
  skills : Option (List String)
  categories : Option (List String)
deriving DecidableEq

/-- JS truthiness of a possibly-missing array (a present array is always truthy). -/
def truthyArr : Option (List String) → Bool
  | none => false
  | some _ => true

/-- `jobData.description && jobData.description.length > 100`. -/
def longDescr : Option String → Bool
  | none => false
  | some d => truthy (some d) && decide (d.length > 100)

/-- `jobData.skills && jobData.skills.length > 0` (likewise for categories). -/
def nonEmptyArr (a : Option (List String)) : Bool :=
  truthyArr a && (match a with | some l => decide (l.length > 0) | none => false)

/-- `calculateQualityScore` (lines 580-590): weighted completeness sum capped
at 100 by `Math.min`. -/
def calculateQualityScore (jd : QJob) : Nat :=
  let s1 := if truthy jd.title && truthy jd.company then 30 else 0
  let s2 := if longDescr jd.description then 25 else 0
  let s3 := if truthy jd.salary then 20 else 0
  let s4 := if nonEmptyArr jd.skills then 15 else 0
  let s5 := if nonEmptyArr jd.categories then 10 else 0
  Nat.min (s1 + s2 + s3 + s4 + s5) 100

/-!
### A small backtracking regex engine

`parseSalary` matches JS regexes against the salary text. The engine below
implements exactly the constructs those three patterns use: character
classes, sequencing, alternation, greedy star (with backtracking) and two
capture groups, with leftmost-first search like `String.prototype.match`.
All recursion is structural so that concrete matches reduce in the kernel.
-/

/-- Regular expressions over characters: classes, sequencing, alternation,
greedy star, and the two numbered capture groups the salary patterns use. -/
inductive RE where
  | eps : RE
  | cls (f : Char → Bool) : RE
  | seq (a b : RE) : RE
  | alt (a b : RE) : RE
  | star (a : RE) : RE
  | grp1 (a : RE) : RE
  | grp2 (a : RE) : RE

/-- Captured substrings for groups 1 and 2 (in JS, `match[1]`/`match[2]`). -/
abbrev Caps := Option (List Char) × Option (List Char)

/-- One layer of the matcher; `self` re-enters the whole matcher (used by
`star`, one fuel unit per iteration). The continuation `k` receives the
remaining input and captures; alternatives are tried greedily (star expands
first), matching the backtracking order of JS regexes. -/
def reStep (self : RE → List Char → Caps → (List Char → Caps → Option Caps) → Option Caps) :
    RE → List Char → Caps → (List Char → Caps → Option Caps) → Option Caps
  | .eps, s, c, k => k s c
  | .cls f, s, c, k =>
    match s with
    | [] => none
    | x :: xs => if f x then k xs c else none
  | .seq a b, s, c, k => reStep self a s c (fun s' c' => reStep self b s' c' k)
  | .alt a b, s, c, k =>
    match reStep self a s c k with
    | some r => some r
    | none => reStep self b s c k
  | .star a, s, c, k =>
    match reStep self a s c (fun s' c' =>
        if s'.length < s.length then self (.star a) s' c' k else none) with
    | some r => some r
    | none => k s c
  | .grp1 a, s, c, k =>
    reStep self a s c (fun s' c' => k s' (some (s.take (s.length - s'.length)), c'.2))
  | .grp2 a, s, c, k =>
    reStep self a s c (fun s' c' => k s' (c'.1, some (s.take (s.length - s'.length))))

/-- Fuelled matcher (fuel bounds the number of star iterations; each star
iteration consumes at least one character, so `length + 1` fuel is enough). -/
def reM : Nat → RE → List Char → Caps → (List Char → Caps → Option Caps) → Option Caps
  | 0, _, _, _, _ => none
  | n + 1, r, s, c, k => reStep (reM n) r s c k

/-- Leftmost-first search: try a match starting at every position in turn,
like a non-global `String.prototype.match`. Returns the captures of the
first successful match. -/
def reRun (r : RE) : List Char → Option Caps
  | [] => reM 1 r [] (none, none) (fun _ c => some c)
  | s@(_ :: t) =>
    match reM (s.length + 1) r s (none, none) (fun _ c => some c) with
    | some c => some c
    | none => reRun r t

/-- Character matched case-insensitively (the `/i` flag): `c` given lowercase. -/
def chCI (c : Char) : RE := .cls (fun x => x.toLower == c)

/-- A case-insensitive literal word. -/
def litCI (w : String) : RE :=
  w.data.foldr (fun c r => RE.seq (chCI c) r) RE.eps

/-- `\s` (whitespace class). -/
def clsWS : RE := .cls Char.isWhitespace

/-- `\d` (digit class). -/
def clsD : RE := .cls Char.isDigit

/-- `[\d,]` (digit or comma). -/
def clsDC : RE := .cls (fun c => c.isDigit || c == ',')

/-- `\d+[\d,]*` — the numeric token captured by the salary patterns. -/
def reNum : RE := .seq clsD (.seq (.star clsD) (.star clsDC))

/-- `\s*`. -/
def wsStar : RE := .star clsWS

/-- `/R\s*(\d+[\d,]*)\s*-\s*R\s*(\d+[\d,]*)/i` — range format "R X - R Y". -/
def reSalaryRange : RE :=
  .seq (chCI 'r') (.seq wsStar (.seq (.grp1 reNum)
    (.seq wsStar (.seq (.cls (fun c => c == '-'))
      (.seq wsStar (.seq (chCI 'r') (.seq wsStar (.grp2 reNum))))))))

/-- `/R\s*(\d+[\d,]*)\s*per\s*(month|year|annum)/i` — single amount format. -/
def reSalarySingle : RE :=
  .seq (chCI 'r') (.seq wsStar (.seq (.grp1 reNum)
    (.seq wsStar (.seq (litCI "per")
      (.seq wsStar (.grp2 (.alt (litCI "month") (.alt (litCI "year") (litCI "annum")))))))))

/-- `/(\d+[\d,]*)\s*-\s*(\d+[\d,]*)\s*ZAR/i` — bare range with ZAR suffix. -/
def reSalaryZAR : RE :=
  .seq (.grp1 reNum) (.seq wsStar (.seq (.cls (fun c => c == '-'))
    (.seq wsStar (.seq (.grp2 reNum) (.seq wsStar (litCI "zar"))))))

/-- `parseInt(str.replace(/,/g, ''))` on a captured numeric token: strip the
commas, then read the leading decimal digits. -/
def parseIntStripped (l : List Char) : Nat :=
  ((l.filter (fun c => !(c == ','))).takeWhile Char.isDigit).foldl
    (fun n c => n * 10 + (c.toNat - 48)) 0

/-- The normalized salary record produced by `parseSalary`. The undisclosed
branches carry no `currency`/`period` keys, hence the `Option`s. -/
structure SalaryRange where
  min : Nat
  max : Nat
  currency : Option String
  period : Option String
  isDisclosed : Bool
deriving DecidableEq

/-- The `{min: 0, max: 0, isDisclosed: false}` fallback of `parseSalary`. -/
def undisclosedSalary : SalaryRange :=
  { min := 0, max := 0, currency := none, period := none, isDisclosed := false }

/-- `period` computation of `parseSalary` (line 444): yearly iff the lowercased
text mentions "year" or "annum". -/
def salaryPeriod (s : String) : String :=
  if jsIncludes (jsToLower s) "year" || jsIncludes (jsToLower s) "annum" then "yearly"
  else "monthly"

/-- Lines 442-452 of `parseSalary`: build the disclosed record from the two
captures. `min` is `parseInt(match[1].replace(/,/g,'')) || 0`; `max` is
`parseInt(match[2]?.replace(/,/g,'')) || min` (so a missing or non-numeric or
zero second capture falls back to `min`), and the two operands are then
ordered by `Math.min`/`Math.max`. -/
def salaryFromCaps (s : String) (c : Caps) : SalaryRange :=
  let mn := match c.1 with
    | some a => parseIntStripped a
    | none => 0
  let mx := match c.2 with
    | some b => if parseIntStripped b = 0 then mn else parseIntStripped b
    | none => mn
  { min := Nat.min mn mx, max := Nat.max mn mx,
    currency := some "ZAR", period := some (salaryPeriod s), isDisclosed := true }

/-- `parseSalary` (lines 422-464): falsy input short-circuits; otherwise the
three formats are tried in order and the first match wins. -/
def parseSalary (salaryText : Option String) : SalaryRange :=
  if !(truthy salaryText) then undisclosedSalary
  else
    let s := jsShow salaryText
    match reRun reSalaryRange s.data with
    | some c => salaryFromCaps s c
    | none =>
      match reRun reSalarySingle s.data with
      | some c => salaryFromCaps s c
      | none =>
        match reRun reSalaryZAR s.data with
        | some c => salaryFromCaps s c
        | none => undisclosedSalary

/-!
### Data model of a scrape run

`Card` is what `page.evaluate` reads out of one job-card DOM element (the
`getText`/`getHref` results, each possibly `null`). `RawJob` is the object the
evaluate callback pushes for a card with truthy title and company. `EnhancedJob`
is the output of `enhanceJobData`, and `Job` is the record created by
`new Job({...})` in `processAndStoreJobs` (shape per `src/backend/models/Job.js`,
restricted to the fields that call site sets, plus the schema defaults the
claims touch: `isActive` defaults to `true`).
-/

structure Card where
  title : Option String
  company : Option String
  location : Option String
  salary : Option String
  summary : Option String
  date : Option String
  link : Option String
deriving DecidableEq

structure RawJob where
  title : String
  company : String
  location : String
  salary : Option String
  summary : Option String
  datePosted : String
  link : Option String
  source : String
  scrapedAt : String
deriving DecidableEq

/-- Output of `enhanceJobData`: the spread of the raw record with the company
name cleaned and, when a summary is present, a `description` and possibly a
`skills` field added. It never carries a `categories` field. -/
structure EnhancedJob where
  title : String
  company : String
  location : String
  salary : Option String
  summary : Option String
  datePosted : String
  link : Option String
  source : String
  scrapedAt : String
  description : Option String
  skills : Option (List String)
deriving DecidableEq

/-- The persisted job record, as constructed at the `new Job({...})` call site
(fields not set there and not used by any claim are omitted). -/
structure Job where
  title : String
  company : String
  description : String
  location : String
  salaryRange : SalaryRange
  jobType : String
  experienceLevel : String
  applicationUrl : Option String
  sourceWebsite : String
  sourceUrl : Option String
  scrapedId : String
  isRemote : Bool
  categories : List String
  skills : List String
  postedDate : String
  qualityScore : Nat
  scrapedAccuracy : Nat
  isActive : Bool
deriving DecidableEq

/-- `this.scrapingStats`. `successRate` is kept as an exact rational, standing
for the JS floating-point value (the runs the theorems evaluate stay well
inside the exactly-representable range). -/
structure Stats where
  totalJobsScraped : Nat
  lastScrapingRun : Option String
  errors : Nat
  successRate : ℚ
deriving DecidableEq

/-- The mutable fields of the `ScrapingService` singleton. `browser = true`
means `this.browser` holds a live browser object. -/
structure SvcState where
  browser : Bool
  isInit : Bool
  stats : Stats
deriving DecidableEq

/-- One entry of the `errors` value of a run result: the per-site objects
`{site, error}` pushed in the scraping loop, or the bare `error.message`
string pushed by the outer catch. -/
inductive ErrEntry where
  | bySite (site : String) (error : String) : ErrEntry
  | bare (error : String) : ErrEntry
deriving DecidableEq

/-- The object `scrapeJobs` resolves with. The failure branch carries an
`error` message and no `statistics` key. -/
structure RunResult where
  success : Bool
  jobsFound : Nat
  jobs : List Job
  errors : List ErrEntry
  error : Option String
  statistics : Option Stats
deriving DecidableEq

/-- Oracles for the effectful operations of one run: browser launch, the
per-site page fetch (navigation + selector wait + DOM read, collapsed to its
outcome), URL resolution (`new URL`, which can throw), the clock, `Date`
parsing, the crypto signature, and the persistence adapter (`Job.findOne`),
including a flag for a DB operation throwing on a given natural key. -/
structure ScrapeEnv where
  launchOk : Bool
  launchErrMsg : String
  page : String → Except String (List Card)
  resolveUrl : String → String → Option String
  nowISO : String
  today : String
  dateParse : String → Option String
  sign : EnhancedJob → String
  store : String → String → String → Option Job
  procFail : String → String → String → Bool

/-- `parseDate` (lines 563-578): relative phrases collapse to now; otherwise a
best-effort `new Date(...)` parse with fallback to now; never throws. The
`includes` checks are case-sensitive, as in the source. -/
def parseDate (env : ScrapeEnv) (dateString : Option String) : String :=
  if !(truthy dateString) then env.nowISO
  else
    let s := jsShow dateString
    if jsIncludes s "ago" || jsIncludes s "today" || jsIncludes s "just" then env.nowISO
    else
      match env.dateParse s with
      | some d => d
      | none => env.nowISO

/-- `enhanceJobData` (lines 399-420). -/
def enhanceJobData (jd : RawJob) : EnhancedJob :=
  let comp := if truthy (some jd.company) then cleanCompany jd.company else jd.company
  let descr := if truthy jd.summary then jd.summary else none
  let skills :=
    if truthy jd.summary then
      let sk := extractSkillsFromText (jsShow jd.summary)
      if sk.length > 0 then some sk else none
    else none
  { title := jd.title, company := comp, location := jd.location, salary := jd.salary,
    summary := jd.summary, datePosted := jd.datePosted, link := jd.link,
    source := jd.source, scrapedAt := jd.scrapedAt, description := descr, skills := skills }

/-- The record the inline quality scorer receives at the `new Job` call site:
the enhanced job viewed as a dynamic object (it has no `categories` key). -/
def toQJob (e : EnhancedJob) : QJob :=
  { title := some e.title, company := some e.company, description := e.description,
    salary := e.salary, skills := e.skills, categories := none }

/-- The `new Job({...})` construction of `processAndStoreJobs` (lines 361-383). -/
def buildJobRecord (env : ScrapeEnv) (e : EnhancedJob) : Job :=
  { title := e.title, company := e.company,
    description := jsOrStr (jsOrOpt e.description e.summary) "No description available",
    location := e.location,
    salaryRange := parseSalary e.salary,
    jobType := detectJobType e.title e.description,
    experienceLevel := detectExperienceLevel e.title e.description,
    applicationUrl := e.link,
    sourceWebsite := e.source, sourceUrl := e.link, scrapedId := env.sign e,
    isRemote := isRemoteJob e.title e.description e.location,
    categories := detectCategories e.title e.description,
    skills := extractSkills e.title e.description,
    postedDate := parseDate env (some e.datePosted),
    qualityScore := calculateQualityScore (toQJob e),
    scrapedAccuracy := 85,
    isActive := true }

/-- `processAndStoreJobs` (lines 337-397): per job, look up the natural key;
an existing active record is pushed as-is, an existing inactive one is
skipped; otherwise enhance and create. Any error thrown inside the loop body
(`Job.findOne` or `save` failing, flagged by `procFail`) is caught and the job
skipped; the loop always continues. -/
def processAndStoreJobs (env : ScrapeEnv) : List RawJob → List Job
  | [] => []
  | jd :: rest =>
    if env.procFail jd.title jd.company jd.location then processAndStoreJobs env rest
    else
      match env.store jd.title jd.company jd.location with
      | some existing =>
        if existing.isActive then existing :: processAndStoreJobs env rest
        else processAndStoreJobs env rest
      | none => buildJobRecord env (enhanceJobData jd) :: processAndStoreJobs env rest

/-- The dedup key of `deduplicateJobs` (line 599):
lowercased "title-company-location". -/
def dedupKey (j : RawJob) : String :=
  jsToLower (j.title ++ "-" ++ j.company ++ "-" ++ j.location)

/-- The stateful filter of `deduplicateJobs`, with the `seen` set explicit. -/
def dedupScan : List RawJob → List String → List RawJob
  | [], _ => []
  | j :: rest, seen =>
    if dedupKey j ∈ seen then dedupScan rest seen
    else j :: dedupScan rest (dedupKey j :: seen)

/-- `deduplicateJobs` (lines 596-604). -/
def deduplicateJobs (jobs : List RawJob) : List RawJob :=
  dedupScan jobs []

/-- Selector map of one source (`this.jobSites[...].selectors`). The selector
strings drive only the DOM reads, which the `page` oracle performs. -/
structure Selectors where
  jobCard : String
  titleSel : String
  companySel : String
  locationSel : String
  salarySel : String
  summarySel : String
  dateSel : String
  linkSel : String
deriving DecidableEq

/-- One entry of `this.jobSites`. -/
structure SiteConfig where
  name : String
  url : String
  searchPath : String
  selectors : Selectors
deriving DecidableEq

/-- The `indeed` entry of `this.jobSites` (lines 24-38). -/
def indeedConfig : SiteConfig where
  name := "Indeed South Africa"
  url := "https://www.indeed.co.za"
  searchPath := "/jobs"
  selectors :=
    { jobCard := ".jobsearch-SerpJobCard", titleSel := ".title a", companySel := ".company",
      locationSel := ".location", salarySel := ".salary-snippet", summarySel := ".summary",
      dateSel := ".date", linkSel := ".title a" }

/-- The `careerjet` entry of `this.jobSites` (lines 39-53). -/
def careerjetConfig : SiteConfig where
  name := "CareerJet South Africa"
  url := "https://www.careerjet.co.za"
  searchPath := "/search/jobs"
  selectors :=
    { jobCard := ".job", titleSel := ".title a", companySel := ".company",
      locationSel := ".location", salarySel := ".salary", summarySel := ".description",
      dateSel := ".date", linkSel := ".title a" }

/-- The `pnet` entry of `this.jobSites` (lines 54-68). -/
def pnetConfig : SiteConfig where
  name := "PNet South Africa"
  url := "https://www.pnet.co.za"
  searchPath := "/jobs.html"
  selectors :=
    { jobCard := ".job-element", titleSel := ".job-title a", companySel := ".company",
      locationSel := ".location", salarySel := ".salary", summarySel := ".description",
      dateSel := ".date", linkSel := ".job-title a" }

/-- The `careers24` entry of `this.jobSites` (lines 69-83). -/
def careers24Config : SiteConfig where
  name := "Careers24"
  url := "https://www.careers24.com"
  searchPath := "/jobs"
  selectors :=
    { jobCard := ".job-card", titleSel := ".job-title a", companySel := ".company-name",
      locationSel := ".job-location", salarySel := ".salary", summarySel := ".job-description",
      dateSel := ".post-date", linkSel := ".job-title a" }

/-- `this.jobSites` (lines 23-84), keyed by source identifier. -/
def jobSites : String → Option SiteConfig
  | "indeed" => some indeedConfig
  | "careerjet" => some careerjetConfig
  | "pnet" => some pnetConfig
  | "careers24" => some careers24Config
  | _ => none

/-- Link absolutization inside the evaluate callback (lines 277-280): a
truthy link not starting with "http" goes through `new URL(link, config.url)`,
which may throw (`Except.error` drops the card via the per-card catch). -/
def resolveCardLink (env : ScrapeEnv) (cfg : SiteConfig) (link : Option String) :
    Except Unit (Option String) :=
  if truthy link && !(jsShow link).startsWith "http" then
    match env.resolveUrl (jsShow link) cfg.url with
    | some abs => .ok (some abs)
    | none => .error ()
  else .ok link

/-- The per-card body of the evaluate callback (lines 257-298): resolve the
link, then push a record only when title and company are truthy; location and
date get defaults; `source` is the config display name; any exception in the
body drops just that card. -/
def cardToRaw (env : ScrapeEnv) (cfg : SiteConfig) (c : Card) : Option RawJob :=
  match resolveCardLink env cfg c.link with
  | .error _ => none
  | .ok link =>
    if truthy c.title && truthy c.company then
      some { title := jsShow c.title, company := jsShow c.company,
             location := jsOrStr c.location "South Africa",
             salary := c.salary, summary := c.summary,
             datePosted := jsOrStr c.date env.today,
             link := link, source := cfg.name, scrapedAt := env.nowISO }
    else none

/-- `scrapeSite` (lines 226-313): fetch and parse the page for one source
(the browser/page plumbing, navigation and selector wait are the `page`
oracle; a navigation/timeout/selector error is rethrown to the caller), then
keep the first `limit` records in document order. -/
def scrapeSite (env : ScrapeEnv) (site : String) (limit : Nat) : Except String (List RawJob) :=
  match jobSites site with
  | none => .error "TypeError"
  | some cfg =>
    match env.page site with
    | .error e => .error e
    | .ok cards => .ok ((cards.filterMap (cardToRaw env cfg)).take limit)

/-- `sitesToScrape` of `scrapeJobs` (line 146). -/
def sitesToScrape : List String := ["indeed", "pnet", "careerjet"]

/-- One iteration of the per-site loop of `scrapeJobs` (lines 148-169): a
successful site appends its jobs, a throwing site appends a `{site, error}`
entry, and the loop continues either way. -/
def gatherStep (env : ScrapeEnv) (limit : Nat) (acc : List RawJob × List ErrEntry)
    (site : String) : List RawJob × List ErrEntry :=
  match scrapeSite env site ((limit + sitesToScrape.length - 1) / sitesToScrape.length) with
  | .ok js => (acc.1 ++ js, acc.2)
  | .error e => (acc.1, acc.2 ++ [.bySite site e])

/-- The whole per-site loop: all configured sources are attempted in order,
each with `Math.ceil(limit / sitesToScrape.length)` as its share. -/
def gatherJobs (env : ScrapeEnv) (limit : Nat) : List RawJob × List ErrEntry :=
  sitesToScrape.foldl (gatherStep env limit) ([], [])

/-- `initialize` (lines 87-126): reuse a live session, otherwise launch; on
launch failure `isInitialized` is reset (the stale `browser` value is kept, as
the assignment never ran) and the error is rethrown. -/
def initBrowser (env : ScrapeEnv) (st : SvcState) : Except (String × SvcState) SvcState :=
  if st.isInit && st.browser then .ok st
  else if env.launchOk then .ok { st with browser := true, isInit := true }
  else .error (env.launchErrMsg, { st with isInit := false })

/-- What one `scrapeJobs` invocation does: its settled value (`.ok` a result
object, `.error` a thrown exception), the service state afterwards, and the
sites for which `scrapeSite` was invoked. -/
structure RunOutcome where
  result : Except String RunResult
  state : SvcState
  attempted : List String

/-- `scrapeJobs` (lines 137-224). `await this.initialize()` runs before the
try block, so an initialization failure propagates to the caller. Inside the
try, per-site errors are collected (lines 165-168), the batch is deduplicated,
truncated to `limit` and processed, statistics are updated — note
`((processedJobs.length / allJobs.length) * 100) || 0` — and the success
object is returned. `AuditLogger.log` swallows its own errors (auditLogger.js),
and every other statement in the try block is total, so the catch branch that
would return `success: false` is not reachable; `runTryBlock` is therefore the
whole try statement. -/
def runTryBlock (env : ScrapeEnv) (st1 : SvcState) (limit : Nat) : RunOutcome :=
  let gathered := gatherJobs env limit
  let allJobs := gathered.1
  let errors := gathered.2
  let uniqueJobs := deduplicateJobs allJobs
  let processedJobs := processAndStoreJobs env (uniqueJobs.take limit)
  let newStats : Stats :=
    { totalJobsScraped := st1.stats.totalJobsScraped + processedJobs.length,
      lastScrapingRun := some env.nowISO,
      errors := errors.length,
      successRate :=
        if allJobs.length = 0 then 0
        else ((processedJobs.length : ℚ) / (allJobs.length : ℚ)) * 100 }
  { result := .ok
      { success := true, jobsFound := processedJobs.length, jobs := processedJobs,
        errors := errors, error := none, statistics := some newStats },
    state := { st1 with stats := newStats },
    attempted := sitesToScrape }

/-- One `scrapeJobs(keywords, location, limit)` invocation: initialization
first (outside the try statement — its exception propagates, attempting no
source), then the try block. The keyword/location arguments only feed the
search URL and the audit metadata, both inside the `page` oracle. -/
def scrapeJobs (env : ScrapeEnv) (st : SvcState) (limit : Nat) : RunOutcome :=
  match initBrowser env st with
  | .error (msg, st') => { result := .error msg, state := st', attempted := [] }
  | .ok st1 => runTryBlock env st1 limit

/-- `close` (lines 128-135): release the session if one is held. -/
def close (st : SvcState) : SvcState :=
  if st.browser then { st with browser := false, isInit := false } else st

/-!
### Helper lemmas
-/

/-- `Char.toLower` never produces the uppercase letter I, so a lowercased
text cannot contain it. -/
theorem toLower_ne_upperI (c : Char) : (Char.toLower c == 'I') = false := by
  rw [show Char.toLower c =
      (if c.toNat ≥ 65 ∧ c.toNat ≤ 90 then Char.ofNat (c.toNat + 32) else c) from rfl]
  by_cases hc : c.toNat ≥ 65 ∧ c.toNat ≤ 90
  · rw [if_pos hc]
    obtain ⟨h1, h2⟩ := hc
    generalize hn : c.toNat = n at h1 h2
    interval_cases n <;> decide
  · rw [if_neg hc, beq_eq_false_iff_ne]
    intro h
    subst h
    exact hc (by decide)

/-- A character list avoiding `'I'` has no occurrence of the substring "IT". -/
theorem includesL_IT_eq_false (l : List Char) (h : ∀ c ∈ l, (c == 'I') = false) :
    includesL ("IT".data) l = false := by
  induction l with
  | nil => rfl
  | cons x xs ih =>
    show (startsWithL (x :: xs) ('I' :: 'T' :: []) || includesL ('I' :: 'T' :: []) xs) = false
    have hx : (x == 'I') = false := h x (List.mem_cons_self x xs)
    have hxs : includesL ('I' :: 'T' :: []) xs = false :=
      ih (fun c hc => h c (List.mem_cons_of_mem x hc))
    show ((x == 'I' && startsWithL xs ['T']) || includesL ('I' :: 'T' :: []) xs) = false
    rw [hx, hxs]
    rfl

/-- The lowercased classifier text never contains the keyword "IT". -/
theorem jsIncludes_lower_IT (s : String) : jsIncludes (jsToLower s) "IT" = false := by
  apply includesL_IT_eq_false
  intro c hc
  rw [show (jsToLower s).data = s.data.map Char.toLower from rfl] at hc
  rcases List.mem_map.mp hc with ⟨c0, _, rfl⟩
  exact toLower_ne_upperI c0

/-- Membership in the category accumulation loop. -/
theorem mem_catScan (text : String) (table : List (String × List String)) (c : String) :
    c ∈ catScan text table ↔
      ∃ kws, (c, kws) ∈ table ∧ kws.any (fun k => jsIncludes text k) = true := by
  induction table with
  | nil => simp [catScan]
  | cons hd rest ih =>
    obtain ⟨cat, kws⟩ := hd
    by_cases hg : kws.any (fun k => jsIncludes text k) = true
    · rw [show catScan text ((cat, kws) :: rest) = cat :: catScan text rest from by
        simp [catScan, hg]]
      constructor
      · intro h
        rcases List.mem_cons.mp h with rfl | h
        · exact ⟨kws, List.mem_cons_self _ _, hg⟩
        · obtain ⟨kws', hmem, hany⟩ := ih.mp h
          exact ⟨kws', List.mem_cons_of_mem _ hmem, hany⟩
      · intro h
        obtain ⟨kws', hmem, hany⟩ := h
        rcases List.mem_cons.mp hmem with heq | hmem'
        · injection heq with h1 h2
          rw [h1]
          exact List.mem_cons_self _ _
        · exact List.mem_cons_of_mem _ (ih.mpr ⟨kws', hmem', hany⟩)
    · rw [show catScan text ((cat, kws) :: rest) = catScan text rest from by
        simp [catScan, hg]]
      rw [ih]
      constructor
      · intro h
        obtain ⟨kws', hmem, hany⟩ := h
        exact ⟨kws', List.mem_cons_of_mem _ hmem, hany⟩
      · intro h
        obtain ⟨kws', hmem, hany⟩ := h
        rcases List.mem_cons.mp hmem with heq | hmem'
        · injection heq with h1 h2
          subst h2
          exact absurd hany hg
        · exact ⟨kws', hmem', hany⟩

/-- The dedup filter keeps a sublist of its input. -/
theorem dedupScan_sublist (js : List RawJob) (seen : List String) :
    List.Sublist (dedupScan js seen) js := by
  induction js generalizing seen with
  | nil => simp [dedupScan]
  | cons j rest ih =>
    by_cases hs : dedupKey j ∈ seen
    · exact List.Sublist.trans (by simpa [dedupScan, hs] using ih seen) (List.sublist_cons_self j rest)
    · simpa [dedupScan, hs] using List.Sublist.cons₂ j (ih (dedupKey j :: seen))

/-- Keys surviving the dedup filter avoid the seen set and are distinct. -/
theorem dedupScan_keys (js : List RawJob) (seen : List String) :
    ((dedupScan js seen).map dedupKey).Nodup ∧
      ∀ k ∈ (dedupScan js seen).map dedupKey, k ∉ seen := by
  induction js generalizing seen with
  | nil => simp [dedupScan]
  | cons j rest ih =>
    by_cases hs : dedupKey j ∈ seen
    · simpa [dedupScan, hs] using ih seen
    · have hr := ih (dedupKey j :: seen)
      refine ⟨?_, ?_⟩
      · simp only [dedupScan, if_neg hs, List.map_cons, List.nodup_cons]
        refine ⟨fun hmem => ?_, hr.1⟩
        exact (hr.2 _ hmem) (List.mem_cons_self _ _)
      · intro k hk
        simp only [dedupScan, if_neg hs, List.map_cons, List.mem_cons] at hk
        rcases hk with rfl | hk
        · exact hs
        · exact fun hkseen => (hr.2 k hk) (List.mem_cons_of_mem _ hkseen)

/-- A record whose key is new both to the seen set and to the earlier part of
the batch survives the dedup filter. -/
theorem dedupScan_keeps_first (l₁ : List RawJob) (j : RawJob) (l₂ : List RawJob)
    (seen : List String) (hseen : dedupKey j ∉ seen) (hearly : dedupKey j ∉ l₁.map dedupKey) :
    j ∈ dedupScan (l₁ ++ j :: l₂) seen := by
  induction l₁ generalizing seen with
  | nil =>
    simp only [List.nil_append, dedupScan, if_neg hseen]
    exact List.mem_cons_self _ _
  | cons a l₁ ih =>
    have hne : dedupKey j ≠ dedupKey a := by
      intro h
      exact hearly (by simp [h])
    have hearly' : dedupKey j ∉ l₁.map dedupKey := by
      intro h
      exact hearly (by simp [h])
    by_cases ha : dedupKey a ∈ seen
    · simpa [dedupScan, List.cons_append, ha] using ih seen hseen hearly'
    · have hseen' : dedupKey j ∉ dedupKey a :: seen := by
        intro h
        rcases List.mem_cons.mp h with h | h
        · exact hne h
        · exact hseen h
      simp only [List.cons_append, dedupScan, if_neg ha]
      exact List.mem_cons_of_mem _ (ih _ hseen' hearly')

/-- Every disclosed result of `parseSalary` comes out of `salaryFromCaps` on
the salary text. -/
theorem parseSalary_disclosed (s : Option String)
    (h : (parseSalary s).isDisclosed = true) :
    ∃ c : Caps, parseSalary s = salaryFromCaps (jsShow s) c := by
  by_cases ht : truthy s = true
  · have hps : parseSalary s =
        (match reRun reSalaryRange (jsShow s).data with
          | some c => salaryFromCaps (jsShow s) c
          | none =>
            match reRun reSalarySingle (jsShow s).data with
            | some c => salaryFromCaps (jsShow s) c
            | none =>
              match reRun reSalaryZAR (jsShow s).data with
              | some c => salaryFromCaps (jsShow s) c
              | none => undisclosedSalary) := by
      unfold parseSalary
      rw [ht]
      rfl
    rw [hps] at h ⊢
    rcases h1 : reRun reSalaryRange (jsShow s).data with _ | c1
    · simp only [h1] at h ⊢
      rcases h2 : reRun reSalarySingle (jsShow s).data with _ | c2
      · simp only [h2] at h ⊢
        rcases h3 : reRun reSalaryZAR (jsShow s).data with _ | c3
        · simp only [h3] at h
          exact absurd h (by decide)
        · exact ⟨c3, by simp only [h3]⟩
      · exact ⟨c2, by simp only [h2]⟩
    · exact ⟨c1, by simp only [h1]⟩
  · rw [Bool.not_eq_true] at ht
    unfold parseSalary at h
    rw [ht] at h
    rw [if_pos (by decide : ((!false) = true))] at h
    exact absurd h (by decide)

/-- `salaryFromCaps` orders its operands with `Math.min`/`Math.max`. -/
theorem salaryFromCaps_min_le_max (s : String) (c : Caps) :
    (salaryFromCaps s c).min ≤ (salaryFromCaps s c).max := by
  unfold salaryFromCaps
  exact min_le_max

/-- `salaryFromCaps` labels the period by the year/annum rule. -/
theorem salaryFromCaps_period (s : String) (c : Caps) :
    (salaryFromCaps s c).period = some (salaryPeriod s) := rfl

/-- Every job returned by `processAndStoreJobs` is either an active record
found in the store under the natural key of an input job, or the freshly
created record of an input job. -/
theorem processAndStoreJobs_mem (env : ScrapeEnv) (js : List RawJob) (j : Job)
    (h : j ∈ processAndStoreJobs env js) :
    (∃ raw ∈ js, env.store raw.title raw.company raw.location = some j ∧ j.isActive = true) ∨
      (∃ raw ∈ js, j = buildJobRecord env (enhanceJobData raw)) := by
  induction js with
  | nil => exact absurd h (by simp [processAndStoreJobs])
  | cons jd rest ih =>
    by_cases hf : env.procFail jd.title jd.company jd.location = true
    · rw [show processAndStoreJobs env (jd :: rest) = processAndStoreJobs env rest from by
        simp [processAndStoreJobs, hf]] at h
      rcases ih h with ⟨raw, hraw, hst⟩ | ⟨raw, hraw, heq⟩
      · exact Or.inl ⟨raw, List.mem_cons_of_mem _ hraw, hst⟩
      · exact Or.inr ⟨raw, List.mem_cons_of_mem _ hraw, heq⟩
    · rw [Bool.not_eq_true] at hf
      rcases hst : env.store jd.title jd.company jd.location with _ | existing
      · rw [show processAndStoreJobs env (jd :: rest) =
            buildJobRecord env (enhanceJobData jd) :: processAndStoreJobs env rest from by
          simp [processAndStoreJobs, hf, hst]] at h
        rcases List.mem_cons.mp h with rfl | h'
        · exact Or.inr ⟨jd, List.mem_cons_self _ _, rfl⟩
        · rcases ih h' with ⟨raw, hraw, hs⟩ | ⟨raw, hraw, heq⟩
          · exact Or.inl ⟨raw, List.mem_cons_of_mem _ hraw, hs⟩
          · exact Or.inr ⟨raw, List.mem_cons_of_mem _ hraw, heq⟩
      · by_cases hact : existing.isActive = true
        · rw [show processAndStoreJobs env (jd :: rest) =
              existing :: processAndStoreJobs env rest from by
            simp [processAndStoreJobs, hf, hst, hact]] at h
          rcases List.mem_cons.mp h with rfl | h'
          · exact Or.inl ⟨jd, List.mem_cons_self _ _, hst, hact⟩
          · rcases ih h' with ⟨raw, hraw, hs⟩ | ⟨raw, hraw, heq⟩
            · exact Or.inl ⟨raw, List.mem_cons_of_mem _ hraw, hs⟩
            · exact Or.inr ⟨raw, List.mem_cons_of_mem _ hraw, heq⟩
        · rw [Bool.not_eq_true] at hact
          rw [show processAndStoreJobs env (jd :: rest) = processAndStoreJobs env rest from by
            simp [processAndStoreJobs, hf, hst, hact]] at h
          rcases ih h with ⟨raw, hraw, hs⟩ | ⟨raw, hraw, heq⟩
          · exact Or.inl ⟨raw, List.mem_cons_of_mem _ hraw, hs⟩
          · exact Or.inr ⟨raw, List.mem_cons_of_mem _ hraw, heq⟩

/-- A record built by the evaluate callback carries the display name of its
source configuration. -/
theorem cardToRaw_source (env : ScrapeEnv) (cfg : SiteConfig) (c : Card) (r : RawJob)
    (h : cardToRaw env cfg c = some r) : r.source = cfg.name := by
  unfold cardToRaw at h
  rcases hres : resolveCardLink env cfg c.link with u | link
  · simp only [hres] at h
    exact Option.noConfusion h
  · simp only [hres] at h
    by_cases hb : (truthy c.title && truthy c.company) = true
    · rw [if_pos hb] at h
      cases Option.some.inj h
      rfl
    · rw [Bool.not_eq_true] at hb
      rw [if_neg (by rw [hb]; exact Bool.false_ne_true)] at h
      exact Option.noConfusion h

/-- Initialization succeeds exactly when a session is live or the launch
succeeds; the resulting state holds a live session and keeps the statistics. -/
theorem initBrowser_ok (env : ScrapeEnv) (st : SvcState)
    (h : ((st.isInit && st.browser) || env.launchOk) = true) :
    ∃ st1, initBrowser env st = .ok st1 ∧ st1.browser = true ∧ st1.stats = st.stats := by
  unfold initBrowser
  by_cases h1 : (st.isInit && st.browser) = true
  · rw [if_pos h1]
    exact ⟨st, rfl, (Bool.and_eq_true _ _ |>.mp h1).2, rfl⟩
  · rw [Bool.not_eq_true] at h1
    rw [h1, Bool.false_or] at h
    rw [if_neg (by rw [h1]; exact Bool.false_ne_true), if_pos h]
    exact ⟨_, rfl, rfl, rfl⟩

/-- Initialization failure: no live session and the launch fails. -/
theorem initBrowser_fail (env : ScrapeEnv) (st : SvcState)
    (h1 : (st.isInit && st.browser) = false) (h2 : env.launchOk = false) :
    initBrowser env st = .error (env.launchErrMsg, { st with isInit := false }) := by
  unfold initBrowser
  rw [if_neg (by rw [h1]; exact Bool.false_ne_true), if_neg (by rw [h2]; exact Bool.false_ne_true)]

/-- A run that passes initialization settles as the try block does. -/
theorem scrapeJobs_of_initOk (env : ScrapeEnv) (st st1 : SvcState) (limit : Nat)
    (h : initBrowser env st = .ok st1) :
    scrapeJobs env st limit = runTryBlock env st1 limit := by
  unfold scrapeJobs
  simp only [h]

/-- The per-site loop under the C2 scenario: the first source throws, the
other two succeed. -/
theorem gatherJobs_c2 (env : ScrapeEnv) (limit : Nat) (eA : String)
    (cardsB cardsC : List Card)
    (h2 : env.page "indeed" = .error eA)
    (h3 : env.page "pnet" = .ok cardsB)
    (h4 : env.page "careerjet" = .ok cardsC) :
    gatherJobs env limit =
      ((cardsB.filterMap (cardToRaw env pnetConfig)).take ((limit + 3 - 1) / 3) ++
        (cardsC.filterMap (cardToRaw env careerjetConfig)).take ((limit + 3 - 1) / 3),
        [.bySite "indeed" eA]) := by
  unfold gatherJobs sitesToScrape
  simp only [List.foldl_cons, List.foldl_nil, gatherStep, scrapeSite]
  rw [show jobSites "indeed" = some indeedConfig from rfl,
      show jobSites "pnet" = some pnetConfig from rfl,
      show jobSites "careerjet" = some careerjetConfig from rfl]
  simp only [h2, h3, h4]
  simp [sitesToScrape]

/-- A record without a categories key scores at most 90. -/
theorem score_no_categories (q : QJob) (h : q.categories = none) :
    calculateQualityScore q ≤ 90 := by
  simp only [calculateQualityScore, h]
  rw [show (if nonEmptyArr (none : Option (List String)) = true then 10 else 0) = 0 from rfl]
  split_ifs <;> decide

/-!
### The claims
-/

/-- C4: the salary parser tries the range, single-amount and bare-ZAR patterns
in that order with first match winning; commas are stripped before conversion;
the operands are ordered so a disclosed result has min ≤ max; the period is
yearly exactly when the text mentions year/annum; absent or unmatched text
yields the undisclosed zero record; and the two documented examples parse as
stated. Here "the salary parser" is `parseSalary` and the three patterns are
`reSalaryRange`, `reSalarySingle`, `reSalaryZAR`. -/
theorem claim_C4 :
    (parseSalary (some "R 20,000 - R 30,000") =
      { min := 20000, max := 30000, currency := some "ZAR",
        period := some "monthly", isDisclosed := true })
  ∧ ((parseSalary (some "R 25,000 per annum")).period = some "yearly")
  ∧ (parseSalary none =
      { min := 0, max := 0, currency := none, period := none, isDisclosed := false })
  ∧ (∀ s : Option String, (parseSalary s).isDisclosed = true →
      (parseSalary s).min ≤ (parseSalary s).max)
  ∧ (∀ s : Option String, (parseSalary s).isDisclosed = true →
      ((parseSalary s).period = some "yearly" ↔
        (jsIncludes (jsToLower (jsShow s)) "year" ||
          jsIncludes (jsToLower (jsShow s)) "annum") = true))
  ∧ (∀ (s : String) (c : Caps), truthy (some s) = true →
      reRun reSalaryRange s.data = some c → parseSalary (some s) = salaryFromCaps s c)
  ∧ (∀ s : String, truthy (some s) = true →
      reRun reSalaryRange s.data = none → reRun reSalarySingle s.data = none →
      reRun reSalaryZAR s.data = none → parseSalary (some s) = undisclosedSalary) := by
  refine ⟨by decide, by decide, rfl, ?_, ?_, ?_, ?_⟩
  · intro s h
    obtain ⟨c, hc⟩ := parseSalary_disclosed s h
    rw [hc]
    exact salaryFromCaps_min_le_max _ _
  · intro s h
    obtain ⟨c, hc⟩ := parseSalary_disclosed s h
    rw [hc, salaryFromCaps_period]
    unfold salaryPeriod
    by_cases hy : (jsIncludes (jsToLower (jsShow s)) "year" ||
        jsIncludes (jsToLower (jsShow s)) "annum") = true
    · rw [if_pos hy]
      simp [hy]
    · rw [Bool.not_eq_true] at hy
      rw [if_neg (by rw [hy]; exact Bool.false_ne_true)]
      constructor
      · intro hcontra
        exact absurd (Option.some.inj hcontra) (by decide)
      · intro hcontra
        rw [hy] at hcontra
        exact absurd hcontra Bool.false_ne_true
  · intro s c ht hm
    have hps : parseSalary (some s) =
        (match reRun reSalaryRange s.data with
          | some c => salaryFromCaps s c
          | none =>
            match reRun reSalarySingle s.data with
            | some c => salaryFromCaps s c
            | none =>
              match reRun reSalaryZAR s.data with
              | some c => salaryFromCaps s c
              | none => undisclosedSalary) := by
      unfold parseSalary
      rw [ht]
      rfl
    rw [hps]
    simp only [hm]
  · intro s ht h1 h2 h3
    have hps : parseSalary (some s) =
        (match reRun reSalaryRange s.data with
          | some c => salaryFromCaps s c
          | none =>
            match reRun reSalarySingle s.data with
            | some c => salaryFromCaps s c
            | none =>
              match reRun reSalaryZAR s.data with
              | some c => salaryFromCaps s c
              | none => undisclosedSalary) := by
      unfold parseSalary
      rw [ht]
      rfl
    rw [hps]
    simp only [h1, h2, h3]

/-- C4 witness: the min ≤ max clause applied to a reversed range (and the
period clause applied to the annum example). -/
theorem claim_C4_witness :
    ((parseSalary (some "R 5,000 - R 3,000")).isDisclosed = true ∧
      (parseSalary (some "R 5,000 - R 3,000")).min ≤ (parseSalary (some "R 5,000 - R 3,000")).max) ∧
    ((parseSalary (some "R 25,000 per annum")).period = some "yearly" ↔
      (jsIncludes (jsToLower (jsShow (some "R 25,000 per annum"))) "year" ||
        jsIncludes (jsToLower (jsShow (some "R 25,000 per annum"))) "annum") = true) :=
  ⟨⟨by decide, claim_C4.2.2.2.1 (some "R 5,000 - R 3,000") (by decide)⟩,
    claim_C4.2.2.2.2.1 (some "R 25,000 per annum") (by decide)⟩

/-- C5: `detectJobType` scans the lowercased title+description in the fixed
priority order part-time → contract → temporary/temp → intern/graduate →
remote/work-from-home → hybrid, the first category with a keyword hit wins
(so text hitting two categories classifies as the earlier one), the default is
full-time, and the two documented example titles classify as stated. -/
theorem claim_C5 :
    (detectJobType "Part-Time Accountant" none = "part-time")
  ∧ (detectJobType "Remote Backend Engineer" none = "remote")
  ∧ (∀ (t : String) (d : Option String),
      (jsIncludes (classText t d) "part-time" || jsIncludes (classText t d) "part time") = true →
      detectJobType t d = "part-time")
  ∧ (∀ (t : String) (d : Option String),
      (jsIncludes (classText t d) "part-time" || jsIncludes (classText t d) "part time") = false →
      jsIncludes (classText t d) "contract" = true →
      detectJobType t d = "contract")
  ∧ (∀ (t : String) (d : Option String),
      (jsIncludes (classText t d) "part-time" || jsIncludes (classText t d) "part time") = false →
      jsIncludes (classText t d) "contract" = false →
      (jsIncludes (classText t d) "temporary" || jsIncludes (classText t d) "temp") = true →
      detectJobType t d = "temporary")
  ∧ (∀ (t : String) (d : Option String),
      (jsIncludes (classText t d) "part-time" || jsIncludes (classText t d) "part time") = false →
      jsIncludes (classText t d) "contract" = false →
      (jsIncludes (classText t d) "temporary" || jsIncludes (classText t d) "temp") = false →
      (jsIncludes (classText t d) "intern" || jsIncludes (classText t d) "graduate") = true →
      detectJobType t d = "internship")
  ∧ (∀ (t : String) (d : Option String),
      (jsIncludes (classText t d) "part-time" || jsIncludes (classText t d) "part time") = false →
      jsIncludes (classText t d) "contract" = false →
      (jsIncludes (classText t d) "temporary" || jsIncludes (classText t d) "temp") = false →
      (jsIncludes (classText t d) "intern" || jsIncludes (classText t d) "graduate") = false →
      (jsIncludes (classText t d) "remote" || jsIncludes (classText t d) "work from home") = true →
      detectJobType t d = "remote")
  ∧ (∀ (t : String) (d : Option String),
      (jsIncludes (classText t d) "part-time" || jsIncludes (classText t d) "part time") = false →
      jsIncludes (classText t d) "contract" = false →
      (jsIncludes (classText t d) "temporary" || jsIncludes (classText t d) "temp") = false →
      (jsIncludes (classText t d) "intern" || jsIncludes (classText t d) "graduate") = false →
      (jsIncludes (classText t d) "remote" || jsIncludes (classText t d) "work from home") = false →
      jsIncludes (classText t d) "hybrid" = true →
      detectJobType t d = "hybrid")
  ∧ (∀ (t : String) (d : Option String),
      (jsIncludes (classText t d) "part-time" || jsIncludes (classText t d) "part time") = false →
      jsIncludes (classText t d) "contract" = false →
      (jsIncludes (classText t d) "temporary" || jsIncludes (classText t d) "temp") = false →
      (jsIncludes (classText t d) "intern" || jsIncludes (classText t d) "graduate") = false →
      (jsIncludes (classText t d) "remote" || jsIncludes (classText t d) "work from home") = false →
      jsIncludes (classText t d) "hybrid" = false →
      detectJobType t d = "full-time") := by
  refine ⟨by decide, by decide, ?_, ?_, ?_, ?_, ?_, ?_, ?_⟩
  · intro t d h1
    simp [detectJobType, h1]
  · intro t d h1 h2
    simp [detectJobType, h1, h2]
  · intro t d h1 h2 h3
    simp [detectJobType, h1, h2, h3]
  · intro t d h1 h2 h3 h4
    simp [detectJobType, h1, h2, h3, h4]
  · intro t d h1 h2 h3 h4 h5
    simp [detectJobType, h1, h2, h3, h4, h5]
  · intro t d h1 h2 h3 h4 h5 h6
    simp [detectJobType, h1, h2, h3, h4, h5, h6]
  · intro t d h1 h2 h3 h4 h5 h6
    simp [detectJobType, h1, h2, h3, h4, h5, h6]

/-- C5 witness: a title hitting both the contract and remote categories
classifies by the earlier priority, via the contract clause of the claim. -/
theorem claim_C5_witness :
    detectJobType "Remote Contract Developer" none = "contract" :=
  claim_C5.2.2.2.1 "Remote Contract Developer" none (by decide) (by decide)

/-- The concrete record of the C7 example: title and company present, a
150-character description, salary text present, two skills, one category. -/
def qjobC7 : QJob :=
  { title := some "Software Engineer", company := some "Acme Corp",
    description := some ⟨List.replicate 150 'a'⟩,
    salary := some "R 20,000 - R 30,000",
    skills := some ["SQL", "Sales"], categories := some ["IT"] }

set_option maxRecDepth 4000

/-- C7: the inline quality score is the capped weighted sum 30 (title and
company truthy) + 25 (description longer than 100 chars) + 20 (salary text
present, i.e. a disclosed salary string) + 15 (some skill) + 10 (some
category), the result never exceeds 100 (and is a `Nat`, hence at least 0),
and the documented example record scores exactly 100. The scorer is a pure
function of the record. -/
theorem claim_C7 :
    (∀ jd : QJob, calculateQualityScore jd =
      Nat.min ((if truthy jd.title && truthy jd.company then 30 else 0) +
        (if longDescr jd.description then 25 else 0) +
        (if truthy jd.salary then 20 else 0) +
        (if nonEmptyArr jd.skills then 15 else 0) +
        (if nonEmptyArr jd.categories then 10 else 0)) 100)
  ∧ (∀ jd : QJob, calculateQualityScore jd ≤ 100)
  ∧ (calculateQualityScore qjobC7 = 100) :=
  ⟨fun _ => rfl, fun _ => Nat.min_le_right _ _, by decide⟩

/-- The IT keyword row with the dead uppercase entry removed. -/
def itKeywordsEffective : List String :=
  ["software", "developer", "programmer", "tech", "engineer", "system", "network"]

/-- C9: the category tagger never fires on the keyword "IT" itself — the
scanned text is lowercased while `includes` is case-sensitive — so a record is
tagged IT exactly when one of the other IT keywords occurs in the lowercased
title+description. -/
theorem claim_C9 : ∀ (t : String) (d : Option String),
    jsIncludes (classText t d) "IT" = false ∧
    ("IT" ∈ detectCategories t d ↔
      (itKeywordsEffective.any (fun k => jsIncludes (classText t d) k)) = true) := by
  intro t d
  have hIT : jsIncludes (classText t d) "IT" = false := jsIncludes_lower_IT _
  have hrow : (["software", "developer", "programmer", "IT", "tech", "engineer",
        "system", "network"].any (fun k => jsIncludes (classText t d) k))
      = (itKeywordsEffective.any (fun k => jsIncludes (classText t d) k)) := by
    simp only [itKeywordsEffective, List.any_cons, List.any_nil, hIT, Bool.false_or]
  refine ⟨hIT, ?_⟩
  unfold detectCategories
  by_cases hlen : (catScan (classText t d) categoryKeywords).length > 0
  · rw [if_pos hlen, mem_catScan]
    constructor
    · rintro ⟨kws, hmem, hany⟩
      simp only [categoryKeywords, List.mem_cons, List.not_mem_nil, or_false] at hmem
      rcases hmem with h | h | h | h | h | h | h
      · injection h with h1 h2
        subst h2
        rw [hrow] at hany
        exact hany
      · injection h with h1 h2
        exact absurd h1 (by decide)
      · injection h with h1 h2
        exact absurd h1 (by decide)
      · injection h with h1 h2
        exact absurd h1 (by decide)
      · injection h with h1 h2
        exact absurd h1 (by decide)
      · injection h with h1 h2
        exact absurd h1 (by decide)
      · injection h with h1 h2
        exact absurd h1 (by decide)
    · intro hany
      refine ⟨["software", "developer", "programmer", "IT", "tech", "engineer",
        "system", "network"], by simp [categoryKeywords], ?_⟩
      rw [hrow]
      exact hany
  · rw [if_neg hlen]
    constructor
    · intro hmem
      exact absurd hmem (by decide)
    · intro hany
      exfalso
      apply hlen
      have hm : "IT" ∈ catScan (classText t d) categoryKeywords :=
        (mem_catScan _ _ _).mpr ⟨["software", "developer", "programmer", "IT", "tech",
          "engineer", "system", "network"], by simp [categoryKeywords],
          by rw [hrow]; exact hany⟩
      exact List.length_pos.mpr (List.ne_nil_of_mem hm)

/-- C9 witness: the iff applied to a concrete developer title, and the
dead-keyword clause at a concrete input. -/
theorem claim_C9_witness :
    "IT" ∈ detectCategories "Java developer" none ∧
      jsIncludes (classText "IT specialist" none) "IT" = false :=
  ⟨(claim_C9 "Java developer" none).2.mpr (by decide),
    (claim_C9 "IT specialist" none).1⟩

/-- C10: `enhanceJobData` output never carries a categories key, so the
inline scorer at the `new Job` call site can never award the +10 category
weight: every quality score stored at job creation by `processAndStoreJobs`
is at most 90 (jobs replayed from the store are the stored records and are
not created in this run). -/
theorem claim_C10 :
    (∀ jd : RawJob, (toQJob (enhanceJobData jd)).categories = none)
  ∧ (∀ jd : RawJob, calculateQualityScore (toQJob (enhanceJobData jd)) ≤ 90)
  ∧ (∀ (env : ScrapeEnv) (js : List RawJob),
      (processAndStoreJobs env js).Forall
        (fun j => (∃ raw ∈ js, env.store raw.title raw.company raw.location = some j) ∨
          j.qualityScore ≤ 90)) := by
  refine ⟨fun _ => rfl, ?_, ?_⟩
  · intro jd
    exact score_no_categories _ rfl
  · intro env js
    rw [List.forall_iff_forall_mem]
    intro j hj
    rcases processAndStoreJobs_mem env js j hj with ⟨raw, hraw, hst, _⟩ | ⟨raw, hraw, heq⟩
    · exact Or.inl ⟨raw, hraw, hst⟩
    · right
      rw [heq]
      exact score_no_categories _ rfl

/-- Lowercasing distributes over string concatenation. -/
theorem jsToLower_append (a b : String) : jsToLower (a ++ b) = jsToLower a ++ jsToLower b := by
  apply String.ext
  show ((a ++ b).data.map Char.toLower) = (jsToLower a ++ jsToLower b).data
  rw [String.data_append, String.data_append, List.map_append]
  rfl

/-- Case-insensitive equality of two field values, as the claim reads it. -/
def lowerEq (a b : String) : Prop := jsToLower a = jsToLower b

/-- The claim's fingerprint relation: case-insensitively identical
(title, company, location). -/
def sameFingerprint (j j' : RawJob) : Prop :=
  lowerEq j.title j'.title ∧ lowerEq j.company j'.company ∧ lowerEq j.location j'.location

instance (j j' : RawJob) : Decidable (sameFingerprint j j') := by
  unfold sameFingerprint lowerEq
  infer_instance

/-- Records with case-insensitively identical triples share the dedup key. -/
theorem sameFingerprint_dedupKey (j j' : RawJob) (h : sameFingerprint j j') :
    dedupKey j = dedupKey j' := by
  obtain ⟨h1, h2, h3⟩ := h
  unfold lowerEq at h1 h2 h3
  unfold dedupKey
  rw [jsToLower_append, jsToLower_append, jsToLower_append, jsToLower_append,
    jsToLower_append, jsToLower_append, jsToLower_append, jsToLower_append, h1, h2, h3]

/-- C6 (amended): `deduplicateJobs` keeps, in batch order, exactly the first
occurrence of each lowercased "title-company-location" key (the dash-joined
string, not the triple): the survivors are a sublist of the batch, their keys
are pairwise distinct, and a record whose key no earlier record shares always
survives. Since records with case-insensitively identical (title, company,
location) triples share the key, at most one of any two such records
survives, cross-source included. (The unamended claim fails only because
distinct triples can collide on the dash-joined key.) -/
theorem claim_C6 :
    (∀ js : List RawJob, List.Sublist (deduplicateJobs js) js)
  ∧ (∀ js : List RawJob, ((deduplicateJobs js).map dedupKey).Nodup)
  ∧ (∀ (l₁ : List RawJob) (j : RawJob) (l₂ : List RawJob),
      dedupKey j ∉ l₁.map dedupKey → j ∈ deduplicateJobs (l₁ ++ j :: l₂))
  ∧ (∀ j j' : RawJob, sameFingerprint j j' → dedupKey j = dedupKey j')
  ∧ (∀ (js : List RawJob) (j j' : RawJob), j ∈ deduplicateJobs js →
      j' ∈ deduplicateJobs js → sameFingerprint j j' → j = j') := by
  refine ⟨?_, ?_, ?_, sameFingerprint_dedupKey, ?_⟩
  · intro js
    exact dedupScan_sublist js []
  · intro js
    exact (dedupScan_keys js []).1
  · intro l₁ j l₂ h
    exact dedupScan_keeps_first l₁ j l₂ [] (by simp) h
  · intro js j j' hj hj' hfp
    exact List.inj_on_of_nodup_map ((dedupScan_keys js []).1) hj hj'
      (sameFingerprint_dedupKey _ _ hfp)

/-- First record of the C6 counterexample: title "a-b", company "c". -/
def rawDashA : RawJob :=
  { title := "a-b", company := "c", location := "d", salary := none, summary := none,
    datePosted := "x", link := none, source := "s1", scrapedAt := "t1" }

/-- Second record of the C6 counterexample: title "a", company "b-c" — a
different (title, company, location) triple with the same dash-joined key. -/
def rawDashB : RawJob :=
  { title := "a", company := "b-c", location := "d", salary := none, summary := none,
    datePosted := "x", link := none, source := "s2", scrapedAt := "t2" }

/-- C6 counterexample: `rawDashB` is the first (and only) occurrence of its
case-insensitive (title, company, location) fingerprint in the batch, yet the
Deduplicator discards it, because the key joins the fields with "-" and the
two distinct triples collide. -/
theorem claim_C6_counterexample :
    deduplicateJobs [rawDashA, rawDashB] = [rawDashA] ∧
    ¬ sameFingerprint rawDashB rawDashA ∧
    rawDashB ∉ deduplicateJobs [rawDashA, rawDashB] :=
  ⟨by decide, by decide, by decide⟩

/-- C6 witness: the keeps-first clause applied at a concrete batch. -/
theorem claim_C6_witness : rawDashA ∈ deduplicateJobs [rawDashA, rawDashB] :=
  claim_C6.2.2.1 [] rawDashA [rawDashB] (by decide)

/-- The constructor state of the service (lines 12-20): no browser, not
initialized, zeroed statistics. -/
def freshState : SvcState :=
  { browser := false, isInit := false,
    stats := { totalJobsScraped := 0, lastScrapingRun := none, errors := 0, successRate := 0 } }

/-- A job card whose selectors read title "T", company "C", location "L". -/
def cardTCL : Card :=
  { title := some "T", company := some "C", location := some "L",
    salary := none, summary := none, date := some "d", link := none }

/-- A world where the browser cannot be launched. -/
def envLaunchFail : ScrapeEnv :=
  { launchOk := false, launchErrMsg := "Failed to launch the browser process",
    page := fun _ => .ok [], resolveUrl := fun _ _ => none, nowISO := "now",
    today := "today", dateParse := fun _ => none, sign := fun _ => "sig",
    store := fun _ _ _ => none, procFail := fun _ _ _ => false }

/-- A world where the launch and all three sources succeed with no cards. -/
def envAllOk : ScrapeEnv :=
  { launchOk := true, launchErrMsg := "",
    page := fun _ => .ok [], resolveUrl := fun _ _ => none, nowISO := "now",
    today := "today", dateParse := fun _ => none, sign := fun _ => "sig",
    store := fun _ _ _ => none, procFail := fun _ _ _ => false }

/-- A world where the first source yields the same card twice (so one raw
job is dropped by deduplication) and the other sources yield nothing. -/
def envDup : ScrapeEnv :=
  { launchOk := true, launchErrMsg := "",
    page := fun site => if site = "indeed" then .ok [cardTCL, cardTCL] else .ok [],
    resolveUrl := fun _ _ => none, nowISO := "now", today := "today",
    dateParse := fun _ => none, sign := fun _ => "sig",
    store := fun _ _ _ => none, procFail := fun _ _ _ => false }

/-- C1 (amended): when no session is live and the launch fails, the run
aborts before attempting any source and the launch exception propagates to
the caller — no result object (in particular no `success: false` object) is
returned, and `isInitialized` is reset; a run that passes initialization
always settles with a result object whose `success` is true. -/
theorem claim_C1 :
    (∀ (env : ScrapeEnv) (st : SvcState) (limit : Nat),
      (st.isInit && st.browser) = false → env.launchOk = false →
        (scrapeJobs env st limit).result = .error env.launchErrMsg ∧
        (scrapeJobs env st limit).attempted = [] ∧
        (scrapeJobs env st limit).state = { st with isInit := false })
  ∧ (∀ (env : ScrapeEnv) (st : SvcState) (limit : Nat),
      ((st.isInit && st.browser) || env.launchOk) = true →
        ∃ r : RunResult, (scrapeJobs env st limit).result = .ok r ∧ r.success = true) := by
  constructor
  · intro env st limit h1 h2
    have heq : scrapeJobs env st limit =
        { result := .error env.launchErrMsg, state := { st with isInit := false },
          attempted := [] } := by
      unfold scrapeJobs
      simp only [initBrowser_fail env st h1 h2]
    rw [heq]
    exact ⟨rfl, rfl, rfl⟩
  · intro env st limit h
    obtain ⟨st1, hinit, _, _⟩ := initBrowser_ok env st h
    rw [scrapeJobs_of_initOk env st st1 limit hinit]
    exact ⟨_, rfl, rfl⟩

/-- C1 counterexample: with a fresh service and a failing launch, the run
raises to its caller — the settled value is the thrown error, not a result
object — refuting both the `success:false` object and the never-raises parts
of the claim. No source is attempted, as the claim states. -/
theorem claim_C1_counterexample :
    (scrapeJobs envLaunchFail freshState 50).result =
      .error "Failed to launch the browser process" ∧
    (∀ r : RunResult, (scrapeJobs envLaunchFail freshState 50).result ≠ .ok r) ∧
    (scrapeJobs envLaunchFail freshState 50).attempted = [] := by
  refine ⟨rfl, ?_, rfl⟩
  intro r h
  rw [show (scrapeJobs envLaunchFail freshState 50).result =
    .error "Failed to launch the browser process" from rfl] at h
  exact Except.noConfusion h

/-- C1 witness: both clauses applied at concrete worlds. -/
theorem claim_C1_witness :
    ((scrapeJobs envLaunchFail freshState 50).result = .error envLaunchFail.launchErrMsg ∧
      (scrapeJobs envLaunchFail freshState 50).attempted = [] ∧
      (scrapeJobs envLaunchFail freshState 50).state = { freshState with isInit := false }) ∧
    (∃ r : RunResult, (scrapeJobs envAllOk freshState 9).result = .ok r ∧ r.success = true) :=
  ⟨claim_C1.1 envLaunchFail freshState 50 rfl rfl,
    claim_C1.2 envAllOk freshState 9 rfl⟩

/-- C8 (amended): no exit path of `scrapeJobs` releases the browser session —
every run that starts with or acquires a live session terminates with the
session still open (the singleton browser is deliberately reused across
runs); the session is released only by a separate explicit `close()` call,
which does clear it. -/
theorem claim_C8 :
    (∀ (env : ScrapeEnv) (st : SvcState) (limit : Nat),
      ((st.isInit && st.browser) || env.launchOk) = true →
        (scrapeJobs env st limit).state.browser = true)
  ∧ (∀ st : SvcState, (close st).browser = false) := by
  constructor
  · intro env st limit h
    obtain ⟨st1, hinit, hb, _⟩ := initBrowser_ok env st h
    rw [scrapeJobs_of_initOk env st st1 limit hinit]
    exact hb
  · intro st
    unfold close
    by_cases hb : st.browser = true
    · rw [if_pos hb]
    · rw [Bool.not_eq_true] at hb
      rw [if_neg (by rw [hb]; exact Bool.false_ne_true)]
      exact hb

/-- C8 counterexample: a fully successful run exits with the session still
open — `close` is executed on no exit path of `scrapeJobs`. -/
theorem claim_C8_counterexample :
    (∃ r : RunResult, (scrapeJobs envAllOk freshState 9).result = .ok r ∧ r.success = true) ∧
    (scrapeJobs envAllOk freshState 9).state.browser = true ∧
    (scrapeJobs envAllOk freshState 9).state.isInit = true :=
  ⟨⟨_, rfl, rfl⟩, rfl, rfl⟩

/-- C8 witness: the session-stays-open clause at a concrete world. -/
theorem claim_C8_witness : (scrapeJobs envAllOk freshState 9).state.browser = true :=
  claim_C8.1 envAllOk freshState 9 rfl

/-- C3 (amended): for every run that completes (passes initialization), the
reported `statistics.successRate` is the PERCENTAGE
(processedCount / foundCount) * 100 — not the bare ratio — where
processedCount is the number of processed jobs returned (`jobsFound`) and
foundCount is the total number of raw jobs gathered across all sources; it is
0 when foundCount is 0 (the JS `|| 0` mapping NaN to 0). -/
theorem claim_C3 :
    ∀ (env : ScrapeEnv) (st : SvcState) (limit : Nat),
      ((st.isInit && st.browser) || env.launchOk) = true →
      ∃ (r : RunResult) (s : Stats),
        (scrapeJobs env st limit).result = .ok r ∧
        r.statistics = some s ∧
        r.jobsFound = r.jobs.length ∧
        s.successRate =
          (if (gatherJobs env limit).1.length = 0 then 0
            else ((r.jobs.length : ℚ) / ((gatherJobs env limit).1.length : ℚ)) * 100) := by
  intro env st limit h
  obtain ⟨st1, hinit, _, _⟩ := initBrowser_ok env st h
  rw [scrapeJobs_of_initOk env st st1 limit hinit]
  exact ⟨_, _, rfl, rfl, rfl, rfl⟩

/-- C3 counterexample: a run that gathers 2 raw jobs and processes 1 reports
successRate 50 (a percentage), while the claimed value processed/found is
1/2; the two differ. -/
theorem claim_C3_counterexample :
    (gatherJobs envDup 50).1.length = 2 ∧
    (scrapeJobs envDup freshState 50).result.toOption.map RunResult.jobsFound = some 1 ∧
    (scrapeJobs envDup freshState 50).state.stats.successRate = 50 ∧
    (50 : ℚ) ≠ (1 : ℚ) / 2 := by
  refine ⟨by decide, by decide, ?_, by norm_num⟩
  have hinit : initBrowser envDup freshState =
      .ok { freshState with browser := true, isInit := true } := rfl
  rw [scrapeJobs_of_initOk _ _ _ _ hinit]
  show (if (gatherJobs envDup 50).1.length = 0 then (0 : ℚ)
      else (((processAndStoreJobs envDup
          ((deduplicateJobs (gatherJobs envDup 50).1).take 50)).length : ℚ) /
        ((gatherJobs envDup 50).1.length : ℚ)) * 100) = 50
  rw [show (gatherJobs envDup 50).1.length = 2 from by decide,
    show (processAndStoreJobs envDup
      ((deduplicateJobs (gatherJobs envDup 50).1).take 50)).length = 1 from by decide]
  norm_num

/-- C3 witness: the amended statement applied at a concrete world. -/
theorem claim_C3_witness :
    ∃ (r : RunResult) (s : Stats),
      (scrapeJobs envDup freshState 50).result = .ok r ∧
      r.statistics = some s ∧
      r.jobsFound = r.jobs.length ∧
      s.successRate =
        (if (gatherJobs envDup 50).1.length = 0 then 0
          else ((r.jobs.length : ℚ) / ((gatherJobs envDup 50).1.length : ℚ)) * 100) :=
  claim_C3 envDup freshState 50 rfl

/-- C2 (amended): in a run where the first source throws and the other two
succeed, the run is not aborted, settles with `success: true`, and `errors`
holds exactly the one entry for the failing source; and — provided the
persistence store holds no active record under any natural key — every
returned job was created from a card scraped from one of the two succeeding
sources. (Without the store condition, a pre-existing active record whose
natural key matches a scraped card is returned as-is, and its recorded source
can be any site.) -/
theorem claim_C2 :
    ∀ (env : ScrapeEnv) (st : SvcState) (limit : Nat) (eA : String)
      (cardsB cardsC : List Card),
      ((st.isInit && st.browser) || env.launchOk) = true →
      env.page "indeed" = .error eA →
      env.page "pnet" = .ok cardsB →
      env.page "careerjet" = .ok cardsC →
      (∀ (t c l : String) (j : Job), env.store t c l = some j → j.isActive = false) →
      ∃ r : RunResult,
        (scrapeJobs env st limit).result = .ok r ∧
        r.success = true ∧
        r.errors = [.bySite "indeed" eA] ∧
        ∀ j ∈ r.jobs, j.sourceWebsite = "PNet South Africa" ∨
          j.sourceWebsite = "CareerJet South Africa" := by
  intro env st limit eA cardsB cardsC hpast h2 h3 h4 hstore
  obtain ⟨st1, hinit, _, _⟩ := initBrowser_ok env st hpast
  rw [scrapeJobs_of_initOk env st st1 limit hinit]
  refine ⟨_, rfl, rfl, ?_, ?_⟩
  · show (gatherJobs env limit).2 = [.bySite "indeed" eA]
    rw [gatherJobs_c2 env limit eA cardsB cardsC h2 h3 h4]
  · intro j hj
    rcases processAndStoreJobs_mem env _ j hj with ⟨raw, _, hst, hact⟩ | ⟨raw, hraw, heq⟩
    · rw [hstore _ _ _ _ hst] at hact
      exact absurd hact Bool.false_ne_true
    · have hsrc : j.sourceWebsite = raw.source := by
        rw [heq]
        rfl
      have hraw1 : raw ∈ deduplicateJobs (gatherJobs env limit).1 :=
        (List.take_sublist _ _).subset hraw
      have hraw2 : raw ∈ (gatherJobs env limit).1 :=
        (dedupScan_sublist _ []).subset hraw1
      rw [gatherJobs_c2 env limit eA cardsB cardsC h2 h3 h4] at hraw2
      rcases List.mem_append.mp hraw2 with hB | hC
      · left
        obtain ⟨c, _, hcr⟩ := List.mem_filterMap.mp ((List.take_sublist _ _).subset hB)
        rw [hsrc, cardToRaw_source env pnetConfig c raw hcr]
        rfl
      · right
        obtain ⟨c, _, hcr⟩ := List.mem_filterMap.mp ((List.take_sublist _ _).subset hC)
        rw [hsrc, cardToRaw_source env careerjetConfig c raw hcr]
        rfl

/-- The stored record of the C2 counterexample: an active pre-existing job
under the natural key ("T", "C", "L"), recorded as scraped from Indeed. -/
def storedIndeedJob : Job :=
  { title := "T", company := "C", description := "Old stored record", location := "L",
    salaryRange := { min := 0, max := 0, currency := none, period := none, isDisclosed := false },
    jobType := "full-time", experienceLevel := "not-specified", applicationUrl := none,
    sourceWebsite := "Indeed South Africa", sourceUrl := none, scrapedId := "old",
    isRemote := false, categories := ["General"], skills := [], postedDate := "2024-01-01",
    qualityScore := 42, scrapedAccuracy := 85, isActive := true }

/-- A world for the C2 scenario: indeed times out, pnet yields one card,
careerjet yields none — and the store already holds `storedIndeedJob` under
the card's natural key. -/
def envStoreHit : ScrapeEnv :=
  { launchOk := true, launchErrMsg := "",
    page := fun site =>
      if site = "indeed" then .error "Navigation timeout of 30000 ms exceeded"
      else if site = "pnet" then .ok [cardTCL] else .ok [],
    resolveUrl := fun _ _ => none, nowISO := "now", today := "today",
    dateParse := fun _ => none, sign := fun _ => "sig",
    store := fun t c l =>
      if t = "T" && (c = "C" && l = "L") then some storedIndeedJob else none,
    procFail := fun _ _ _ => false }

/-- The same world with an empty store (for the witness). -/
def envStoreMiss : ScrapeEnv :=
  { envStoreHit with store := fun _ _ _ => none }

/-- C2 counterexample: source A (indeed) fails and B, C succeed, the result
is `success: true` with exactly one error entry for A — but the returned job
is the pre-existing store record, whose recorded source is Indeed, not B or
C: the record was not scraped from a succeeding source in this run. -/
theorem claim_C2_counterexample :
    (scrapeJobs envStoreHit freshState 9).result.toOption.map RunResult.success = some true ∧
    (scrapeJobs envStoreHit freshState 9).result.toOption.map RunResult.errors =
      some [.bySite "indeed" "Navigation timeout of 30000 ms exceeded"] ∧
    (scrapeJobs envStoreHit freshState 9).result.toOption.map RunResult.jobs =
      some [storedIndeedJob] ∧
    storedIndeedJob.sourceWebsite ≠ "PNet South Africa" ∧
    storedIndeedJob.sourceWebsite ≠ "CareerJet South Africa" :=
  ⟨by decide, by decide, by decide, by decide, by decide⟩

/-- C2 witness: the amended statement applied at the empty-store world. -/
theorem claim_C2_witness :
    ∃ r : RunResult,
      (scrapeJobs envStoreMiss freshState 9).result = .ok r ∧
      r.success = true ∧
      r.errors = [.bySite "indeed" "Navigation timeout of 30000 ms exceeded"] ∧
      ∀ j ∈ r.jobs, j.sourceWebsite = "PNet South Africa" ∨
        j.sourceWebsite = "CareerJet South Africa" :=
  claim_C2 envStoreMiss freshState 9 "Navigation timeout of 30000 ms exceeded"
    [cardTCL] [] rfl rfl rfl rfl (fun _ _ _ _ h => Option.noConfusion h)
